import Mathlib

/-
Verification of the streaming-reconstruction and conversation-management core
of the PromptAssistant repository (src/app.py), via a shallow embedding of the
relevant Python functions into Lean.

Modelling conventions:
- `time.time()` is modelled as a natural-number timestamp (milliseconds); the
  30ms flush threshold `current_time - last_yield_time >= 0.03` becomes
  `last_yield_time + 30 <= now`.
- Formatted `datetime.now()` strings are passed in as opaque `String`
  parameters (`now`, `t1`, ...).
- Python's truthiness/strip check `not content or content.strip() == ""` is
  modelled by `isBlank`, which holds exactly when every character of the
  string is (ASCII) whitespace; an empty string is blank.
- The conversation index (a JSON dict) is modelled as an association list
  `Store := List (String × Conversation)`; dict lookup and keyed update are
  `lookupConv` and `setConv`.
- External effects (the chat-completion transport) are abstracted as explicit
  parameters: a stream is a list of `Chunk`s, a non-streaming title request is
  an `Except Unit String` carrying either the raw returned text or a failure.
-/

/-- One streamed event from the model endpoint, as consumed by
`process_stream_response` in src/app.py: an optional reasoning fragment, an
optional content fragment, and the wall-clock time at which the fragment is
processed. -/
structure Chunk where
  reasoning_content : Option String
  content : Option String
  time : Nat
deriving DecidableEq

/-- The loop state of `process_stream_response`: the accumulated full
response, the accumulated reasoning, the unflushed buffer, the time of the
last content flush, and the character count since the last content flush. -/
structure SRState where
  full_response : String
  reasoning : String
  buffer : String
  last_yield_time : Nat
  char_count : Nat
deriving DecidableEq

/-- The fixed list of flush-triggering fragments in src/app.py line 69:
`content in ['\n', '。', '！', '？', '.', '!', '?']`. -/
def sentencePunct : List String := ["\n", "。", "！", "？", ".", "!", "?"]

/-- The `should_yield` condition of src/app.py lines 66–70, evaluated after
the fragment `c` has been appended (so the character count compared against 5
is `char_count + c.length`). -/
def shouldYield (st : SRState) (c : String) (now : Nat) : Bool :=
  (st.last_yield_time + 30 ≤ now) || (5 ≤ st.char_count + c.length) ||
    sentencePunct.contains c

/-- Processing of a single chunk by the loop body of
`process_stream_response` (src/app.py lines 50–76): the reasoning fragment,
when present, is appended and emitted immediately; the content fragment, when
present, is appended to `full_response` and `buffer`, and a cumulative
`(reasoning, full_response)` snapshot is emitted when `shouldYield` holds, in
which case the buffer, the character count and the last flush time are
reset. -/
def processChunk (st : SRState) (ch : Chunk) : SRState × List (String × String) :=
  let (st1, out1) :=
    match ch.reasoning_content with
    | none => (st, [])
    | some rc =>
      let st' := { st with reasoning := st.reasoning ++ rc }
      (st', [(st'.reasoning, st'.full_response)])
  match ch.content with
  | none => (st1, out1)
  | some c =>
    if shouldYield st1 c ch.time then
      ({ st1 with
          full_response := st1.full_response ++ c
          buffer := ""
          last_yield_time := ch.time
          char_count := 0 },
       out1 ++ [(st1.reasoning, st1.full_response ++ c)])
    else
      ({ st1 with
          full_response := st1.full_response ++ c
          buffer := st1.buffer ++ c
          char_count := st1.char_count + c.length },
       out1)

/-- The chunk loop of `process_stream_response`, threading the state and
concatenating the emitted snapshots. -/
def runChunks (st : SRState) : List Chunk → SRState × List (String × String)
  | [] => (st, [])
  | ch :: rest =>
    let (st1, out1) := processChunk st ch
    let (st2, out2) := runChunks st1 rest
    (st2, out1 ++ out2)

/-- The initial state of `process_stream_response` (src/app.py lines 44–48):
empty accumulators and `last_yield_time` set to the entry time `t0`. -/
def initState (t0 : Nat) : SRState :=
  { full_response := "", reasoning := "", buffer := "", last_yield_time := t0,
    char_count := 0 }

/-- The whole of `process_stream_response` (src/app.py lines 43–82) as the
list of `(reasoning, content)` snapshots it yields: the loop output followed
by the final flush of lines 79–80, which emits one extra snapshot exactly
when the buffer is non-empty at input exhaustion. -/
def process_stream_response (t0 : Nat) (chunks : List Chunk) :
    List (String × String) :=
  let (st, out) := runChunks (initState t0) chunks
  if st.buffer ≠ "" then out ++ [(st.reasoning, st.full_response)] else out

/-- The content fragment carried by a chunk (empty when absent). -/
def contentOf (ch : Chunk) : String := ch.content.getD ""

/-- Concatenation, in arrival order, of all content fragments of a chunk
sequence. -/
def contentConcat : List Chunk → String
  | [] => ""
  | ch :: rest => contentOf ch ++ contentConcat rest

/-- Python whitespace characters recognised by `str.strip()` (for the ASCII
range relevant here): space, tab, newline, carriage return, vertical tab and
form feed. -/
def isSpaceChar (c : Char) : Bool :=
  c = ' ' || c = '\t' || c = '\n' || c = '\r' ||
    c = Char.ofNat 11 || c = Char.ofNat 12

/-- Truthiness test `not content or content.strip() == ""` of src/app.py
line 186: the string is empty or consists only of whitespace. -/
def isBlank (s : String) : Bool := s.data.all isSpaceChar

/-- Python's two-sided `str.strip()` with the default whitespace set. -/
def pyStrip (s : String) : String :=
  ⟨((s.data.dropWhile isSpaceChar).reverse.dropWhile isSpaceChar).reverse⟩

/-- Python's two-sided `str.strip(chars)` for an explicit character set, as
used by `title.strip('"\'')` in src/app.py line 344. -/
def pyStripSet (cs : List Char) (s : String) : String :=
  ⟨((s.data.dropWhile (cs.contains ·)).reverse.dropWhile (cs.contains ·)).reverse⟩

/-- A stored turn message as persisted by `ConversationManager`
(src/app.py lines 194–198). -/
structure Message where
  role : String
  content : String
  timestamp : String
deriving DecidableEq

/-- A conversation record as created by
`ConversationManager.create_conversation` (src/app.py lines 127–135). -/
structure Conversation where
  id : String
  title : String
  created_at : String
  updated_at : String
  messages : List Message
  likes : Nat
  dislikes : Nat
deriving DecidableEq

/-- The conversation index `self.conversations`, a JSON dict modelled as an
association list from conversation id to record. -/
abbrev Store := List (String × Conversation)

/-- Dict lookup `self.conversations.get(conversation_id)` /
`conversation_id in self.conversations`. -/
def lookupConv : Store → String → Option Conversation
  | [], _ => none
  | (k, c) :: rest, cid => if cid = k then some c else lookupConv rest cid

/-- Dict update `self.conversations[conversation_id] = ...` for a key already
present: every entry under that key is replaced, the rest are untouched. -/
def setConv : Store → String → Conversation → Store
  | [], _, _ => []
  | (k, c) :: rest, cid, c' =>
    if k = cid then (k, c') :: setConv rest cid c'
    else (k, c) :: setConv rest cid c'

/-- `ConversationManager.add_message` (src/app.py lines 177–202): `false` for
an unknown id; `false` (no mutation) for empty/whitespace-only content;
`true` with no mutation when the pair duplicates the last stored message;
otherwise the message is appended with the fresh timestamp `now` and
`updated_at` is bumped. -/
def add_message (s : Store) (cid role content : String) (now : String) :
    Store × Bool :=
  match lookupConv s cid with
  | none => (s, false)
  | some conv =>
    if isBlank content then (s, false)
    else if conv.messages.getLast?.any
        (fun m => m.role == role && m.content == content) then
      (s, true)
    else
      (setConv s cid
        { conv with
            messages := conv.messages ++ [⟨role, content, now⟩]
            updated_at := now },
       true)

/-- `ConversationManager.update_last_message` (src/app.py lines 204–219):
overwrites the content and timestamp of the most recent message and bumps
`updated_at`; `false` if the id is unknown or there are no messages. -/
def update_last_message (s : Store) (cid content now : String) : Store × Bool :=
  match lookupConv s cid with
  | none => (s, false)
  | some conv =>
    match conv.messages.getLast? with
    | none => (s, false)
    | some m =>
      (setConv s cid
        { conv with
            messages := conv.messages.dropLast ++
              [{ m with content := content, timestamp := now }]
            updated_at := now },
       true)

/-- `ConversationManager.remove_last_message` (src/app.py lines 221–235):
removes the most recent message and bumps `updated_at`; `false` if the id is
unknown or there are no messages. -/
def remove_last_message (s : Store) (cid now : String) : Store × Bool :=
  match lookupConv s cid with
  | none => (s, false)
  | some conv =>
    if conv.messages.isEmpty then (s, false)
    else
      (setConv s cid
        { conv with messages := conv.messages.dropLast, updated_at := now },
       true)

/-- `ConversationManager.like_conversation` (src/app.py lines 237–248):
increments the likes counter and bumps `updated_at`; `false` with no
mutation for an unknown id. -/
def like_conversation (s : Store) (cid now : String) : Store × Bool :=
  match lookupConv s cid with
  | none => (s, false)
  | some conv =>
    (setConv s cid { conv with likes := conv.likes + 1, updated_at := now },
     true)

/-- `ConversationManager.dislike_conversation` (src/app.py lines 250–261):
increments the dislikes counter and bumps `updated_at`; `false` with no
mutation for an unknown id. -/
def dislike_conversation (s : Store) (cid now : String) : Store × Bool :=
  match lookupConv s cid with
  | none => (s, false)
  | some conv =>
    (setConv s cid
      { conv with dislikes := conv.dislikes + 1, updated_at := now },
     true)

/-- `generate_conversation_title` (src/app.py lines 316–348), with the
non-streaming completion request abstracted as `api : Except Unit String`
carrying the returned message text or a request failure. With no messages the
default title is returned; on a request failure the internal `except` branch
returns the default title `新对话`; on success the returned text is stripped
of whitespace and of surrounding quote characters, with the default title
substituted when the result is empty. -/
def generate_conversation_title (messages : List Message)
    (api : Except Unit String) : String :=
  if messages.isEmpty then "新对话"
  else
    match api with
    | .error _ => "新对话"
    | .ok raw =>
      let title := pyStripSet ['"', Char.ofNat 39] (pyStrip raw)
      if title = "" then "新对话" else title

/-- `ConversationManager.update_title_with_ai` (src/app.py lines 141–156):
`false` for an unknown id; when the conversation has at least 2 messages the
title produced by `generate_conversation_title` is stored and `true` is
returned (the request outcome is the `api` parameter; since
`generate_conversation_title` traps its own request failure, the `except`
branch of lines 153–155 is unreachable for a request failure); otherwise
`false` with no mutation. -/
def update_title_with_ai (s : Store) (cid : String)
    (api : Except Unit String) : Store × Bool :=
  match lookupConv s cid with
  | none => (s, false)
  | some conv =>
    if 2 ≤ conv.messages.length then
      (setConv s cid
        { conv with title := generate_conversation_title conv.messages api },
       true)
    else (s, false)

/-- Observable outcome of the retry loop of `generate_response`
(src/app.py lines 378–404): how many request attempts were made, the
backoff sleeps performed (in seconds, in order), and whether a request
eventually succeeded. -/
structure RetryOutcome where
  attempts : Nat
  sleeps : List Nat
  success : Bool
deriving DecidableEq

/-- The `while retry_count < max_retries` loop of `generate_response`
(src/app.py lines 378–404) with `max_retries = 3`, starting from retry count
`rc`; `failsAt i` tells whether the `i`-th attempt (0-based) raises. On a
failure the retry count is incremented; if it reaches 3 the loop takes the
terminal-error path, otherwise it sleeps `retry_count * 2` seconds and
retries. -/
def retryLoop (failsAt : Nat → Bool) (rc : Nat) : RetryOutcome :=
  if h : rc < 3 then
    if failsAt rc then
      if h2 : rc + 1 ≥ 3 then { attempts := 1, sleeps := [], success := false }
      else
        let r := retryLoop failsAt (rc + 1)
        { attempts := r.attempts + 1, sleeps := (rc + 1) * 2 :: r.sleeps,
          success := r.success }
    else { attempts := 1, sleeps := [], success := true }
  else { attempts := 0, sleeps := [], success := false }
termination_by 3 - rc
decreasing_by omega

/-- The retry loop of `generate_response` as entered, with
`retry_count = 0`. -/
def generate_response_attempts (failsAt : Nat → Bool) : RetryOutcome :=
  retryLoop failsAt 0

/-- The fixed guidance hints appended to the terminal error message in
src/app.py line 396: network, credentials, connectivity/VPN, retry-later. -/
def guidanceHints : String :=
  "\n\n可能的解决方案:\n1. 检查网络连接\n2. 确认API密钥有效\n3. 尝试使用VPN\n4. 稍后重试"

/-- The terminal error text `final_error_msg` of src/app.py line 396,
carrying the last underlying error `e`. -/
def final_error_msg (e : String) : String :=
  "API调用最终失败: " ++ e ++ guidanceHints

/-- The store effects of `generate_response` (src/app.py lines 351–404) when
all three attempts fail: the user message is appended on entry (line 359) and
the terminal error text is appended as assistant content (line 399) before
control returns to the caller. -/
def generate_response_failure (s : Store) (cid userMsg e now1 now2 : String) :
    Store :=
  let s1 := (add_message s cid "user" userMsg now1).1
  (add_message s1 cid "assistant" (final_error_msg e) now2).1

/-- A visible chat-history entry in Gradio messages format. -/
structure ChatMsg where
  role : String
  content : String
deriving DecidableEq

/-- The backward scan of src/app.py lines 693–697: the content of the most
recent user message in the visible history. -/
def find_last_user_message (h : List ChatMsg) : Option String :=
  (h.reverse.find? (fun m => m.role == "user")).map (fun m => m.content)

/-- Count of user-role entries in a stored message list. -/
def userCount (ms : List Message) : Nat :=
  (ms.filter (fun m => m.role == "user")).length

/-- Count of assistant-role entries in a stored message list. -/
def assistantCount (ms : List Message) : Nat :=
  (ms.filter (fun m => m.role == "assistant")).length

/-- The removal stage of `retry_last_message` (src/app.py lines 702–706): if
the last visible entry is an assistant reply it is dropped from the visible
history and `remove_last_message` drops the last stored message from the
store; otherwise both are untouched. -/
def retry_prepare (h : List ChatMsg) (s : Store) (cid tL : String) :
    List ChatMsg × Store :=
  if h.getLast?.any (fun m => m.role == "assistant") then
    (h.dropLast, (remove_last_message s cid tL).1)
  else (h, s)

/-- The re-send stage of `retry_last_message` in the streaming path, with
the request assumed to succeed and the streamed reply's final content
abstracted as `resp`: `generate_response` appends the recovered user message
(src/app.py line 359) and, when the final content is non-empty, the
assistant reply (line 415); `retry_last_message` then overwrites the last
stored message with the final content and triggers the AI title update
(lines 727–729, both guarded by the final content being non-empty). -/
def retry_resend (u : String) (s : Store) (cid resp : String)
    (api : Except Unit String) (tU tA : String) : Store :=
  let s2 := (add_message s cid "user" u tU).1
  let s3 := if resp = "" then s2
    else (add_message s2 cid "assistant" resp tA).1
  let s4 := if resp = "" then s3
    else (update_last_message s3 cid resp tA).1
  if resp = "" then s4
  else (update_title_with_ai s4 cid api).1

/-- `retry_last_message` (src/app.py lines 688–743) in the streaming path:
a no-op when the history is empty, the index is negative, or no user message
exists; otherwise the removal stage runs, the re-send stage runs with the
recovered user message, and the new assistant entry is appended to the
visible history. -/
def retry_last_message (h : List ChatMsg) (s : Store) (cid : String)
    (idx : Int) (resp : String) (api : Except Unit String)
    (tU tA tL : String) : List ChatMsg × Store :=
  if h.isEmpty || idx < 0 then (h, s)
  else
    match find_last_user_message h with
    | none => (h, s)
    | some u =>
      let (h1, s1) := retry_prepare h s cid tL
      (h1 ++ [⟨"assistant", resp⟩], retry_resend u s1 cid resp api tU tA)

/-- `undo_last_message` (src/app.py lines 679–685): with a positive index it
returns the truncated snapshot stack together with the decremented index;
otherwise it returns the visible history and the index unchanged (note the
two branches return differently-shaped first components, modelled as a sum).
No store or network value is consumed or produced. -/
def undo_last_message (chat_history : List ChatMsg)
    (message_history : List (List ChatMsg)) (current_index : Int) :
    (List ChatMsg ⊕ List (List ChatMsg)) × Int :=
  if current_index > 0 then
    let new_index := current_index - 1
    (Sum.inr (message_history.take (new_index.toNat + 1)), new_index)
  else (Sum.inl chat_history, current_index)

/-- Iterated invocation of `undo_last_message` on the visible history and
index, feeding the returned index back; when the truncated-stack branch is
taken the visible history is left as is (that branch is never taken from
index 0, the only case the boundary claim is about). -/
def undoIter (mh : List (List ChatMsg)) :
    Nat → List ChatMsg × Int → List ChatMsg × Int
  | 0, st => st
  | n + 1, (ch, i) =>
    match undo_last_message ch mh i with
    | (Sum.inl ch', i') => undoIter mh n (ch', i')
    | (Sum.inr _, i') => undoIter mh n (ch, i')

/-- A conversation none of whose persisted messages has empty or
whitespace-only content. -/
def goodConv (conv : Conversation) : Prop :=
  ∀ m ∈ conv.messages, isBlank m.content = false

/-- Invariant tying the reconstructor state to the snapshots emitted so far:
either unflushed content remains in the buffer, or no snapshot has been
emitted, or the most recent snapshot already carries the full accumulated
content. -/
def SnapInv (st : SRState) (out : List (String × String)) : Prop :=
  st.buffer ≠ "" ∨ out = [] ∨ ∃ r, out.getLast? = some (r, st.full_response)

/-- A concrete freshly-created conversation record (as
`create_conversation` builds it), used to instantiate theorems on explicit
inputs. -/
def baseConv : Conversation :=
  { id := "1", title := "新对话", created_at := "t0", updated_at := "t0",
    messages := [], likes := 0, dislikes := 0 }

/-- A concrete conversation holding one stored user message. -/
def oneMsgConv : Conversation :=
  { baseConv with messages := [⟨"user", "hi", "t0"⟩] }

/-- A concrete conversation holding one full user/assistant exchange under a
non-default title. -/
def twoMsgConv : Conversation :=
  { baseConv with
      title := "旧标题"
      messages := [⟨"user", "你好", "t0"⟩, ⟨"assistant", "答复", "t0"⟩] }

/-- A concrete conversation ending in two consecutive assistant replies. -/
def doubleAssistantConv : Conversation :=
  { baseConv with
      messages := [⟨"user", "hi", "t0"⟩, ⟨"assistant", "x", "t0"⟩,
        ⟨"assistant", "y", "t0"⟩] }

theorem string_append_eq_empty {a b : String} (h : a ++ b = "") :
    a = "" ∧ b = "" := by
  have hd : a.data ++ b.data = [] := by
    have := congrArg String.data h
    rwa [String.data_append] at this
  rcases List.append_eq_nil.mp hd with ⟨ha, hb⟩
  constructor
  · cases a
    subst ha
    rfl
  · cases b
    subst hb
    rfl

theorem processChunk_full_response (st : SRState) (ch : Chunk) :
    (processChunk st ch).1.full_response = st.full_response ++ contentOf ch := by
  obtain ⟨r?, c?, t⟩ := ch
  cases r? <;> cases c? <;>
    simp only [processChunk, contentOf, Option.getD] <;>
    (try split) <;> simp [String.append_empty]

theorem runChunks_full_response (st : SRState) (l : List Chunk) :
    (runChunks st l).1.full_response = st.full_response ++ contentConcat l := by
  induction l generalizing st with
  | nil => simp [runChunks, contentConcat, String.append_empty]
  | cons ch rest ih =>
    simp only [runChunks, contentConcat]
    rw [ih, processChunk_full_response, String.append_assoc]

theorem processChunk_snapInv (st : SRState) (ch : Chunk)
    (out : List (String × String)) (h : SnapInv st out) :
    SnapInv (processChunk st ch).1 (out ++ (processChunk st ch).2) := by
  obtain ⟨r?, c?, t⟩ := ch
  cases r? with
  | none =>
    cases c? with
    | none => simpa [processChunk] using h
    | some c =>
      by_cases hy : shouldYield st c t = true
      · refine Or.inr (Or.inr ⟨st.reasoning, ?_⟩)
        simp [processChunk, hy, List.getLast?_append]
      · simp only [processChunk, hy]
        by_cases hb : st.buffer ++ c = ""
        · rcases string_append_eq_empty hb with ⟨hb1, hc1⟩
          subst hc1
          rcases h with h | h | ⟨r, hr⟩
          · exact absurd hb1 h
          · exact Or.inr (Or.inl (by simpa using h))
          · exact Or.inr (Or.inr ⟨r, by
              simpa [String.append_empty] using hr⟩)
        · exact Or.inl (by simpa using hb)
  | some rc =>
    cases c? with
    | none =>
      refine Or.inr (Or.inr ⟨st.reasoning ++ rc, ?_⟩)
      simp [processChunk, List.getLast?_append]
    | some c =>
      by_cases hy : shouldYield { st with reasoning := st.reasoning ++ rc } c t = true
      · refine Or.inr (Or.inr ⟨st.reasoning ++ rc, ?_⟩)
        simp [processChunk, hy, List.getLast?_append]
      · simp only [processChunk, hy]
        by_cases hb : st.buffer ++ c = ""
        · rcases string_append_eq_empty hb with ⟨hb1, hc1⟩
          subst hc1
          refine Or.inr (Or.inr ⟨st.reasoning ++ rc, ?_⟩)
          simp [List.getLast?_append, String.append_empty]
        · exact Or.inl (by simpa using hb)

theorem runChunks_snapInv (st : SRState) (l : List Chunk)
    (out : List (String × String)) (h : SnapInv st out) :
    SnapInv (runChunks st l).1 (out ++ (runChunks st l).2) := by
  induction l generalizing st out with
  | nil => simpa [runChunks] using h
  | cons ch rest ih =>
    have h1 := processChunk_snapInv st ch out h
    have h2 := ih (processChunk st ch).1 (out ++ (processChunk st ch).2) h1
    simpa [runChunks, List.append_assoc] using h2

theorem lookupConv_setConv_self (s : Store) (cid : String)
    (conv c' : Conversation) (h : lookupConv s cid = some conv) :
    lookupConv (setConv s cid c') cid = some c' := by
  induction s with
  | nil => simp [lookupConv] at h
  | cons p rest ih =>
    obtain ⟨k, c⟩ := p
    by_cases hk : cid = k
    · subst hk
      simp [setConv, lookupConv]
    · have hk' : ¬ k = cid := fun h2 => hk h2.symm
      simp only [lookupConv, if_neg hk] at h
      simp only [setConv, if_neg hk', lookupConv, if_neg hk]
      exact ih h

theorem lookupConv_setConv_ne (s : Store) (cid cid' : String)
    (c' : Conversation) (h : cid' ≠ cid) :
    lookupConv (setConv s cid c') cid' = lookupConv s cid' := by
  induction s with
  | nil => rfl
  | cons p rest ih =>
    obtain ⟨k, c⟩ := p
    by_cases hk : k = cid
    · subst hk
      simp only [setConv, if_pos rfl, lookupConv, if_neg h]
      exact ih
    · simp only [setConv, if_neg hk, lookupConv]
      split
      all_goals first
        | rfl
        | exact ih

theorem isBlank_append (a b : String) :
    isBlank (a ++ b) = (isBlank a && isBlank b) := by
  simp [isBlank, String.data_append, List.all_append]

theorem final_error_msg_not_blank (e : String) :
    isBlank (final_error_msg e) = false := by
  have h1 : isBlank "API调用最终失败: " = false := by decide
  simp [final_error_msg, isBlank_append, h1]

theorem add_message_lookup_some (s : Store) (cid role content now : String)
    (conv : Conversation) (h : lookupConv s cid = some conv) :
    ∃ conv', lookupConv (add_message s cid role content now).1 cid
      = some conv' := by
  simp only [add_message, h]
  by_cases hb : isBlank content = true
  · rw [if_pos hb]
    exact ⟨conv, h⟩
  · rw [if_neg hb]
    by_cases hd : conv.messages.getLast?.any
        (fun m => m.role == role && m.content == content) = true
    · rw [if_pos hd]
      exact ⟨conv, h⟩
    · rw [if_neg hd]
      exact ⟨_, lookupConv_setConv_self s cid conv _ h⟩

theorem add_message_last (s : Store) (cid role content now : String)
    (conv : Conversation) (h : lookupConv s cid = some conv)
    (hb : isBlank content = false) :
    (add_message s cid role content now).2 = true ∧
    ∃ conv', lookupConv (add_message s cid role content now).1 cid = some conv'
      ∧ ∃ m, conv'.messages.getLast? = some m ∧ m.role = role
        ∧ m.content = content := by
  simp only [add_message, h]
  rw [if_neg (by simp [hb])]
  by_cases hd : conv.messages.getLast?.any
      (fun m => m.role == role && m.content == content) = true
  · rw [if_pos hd]
    rcases hm : conv.messages.getLast? with _ | m
    · rw [hm] at hd
      simp [Option.any] at hd
    · rw [hm] at hd
      simp only [Option.any, Bool.and_eq_true, beq_iff_eq] at hd
      exact ⟨rfl, conv, h, m, hm, hd.1, hd.2⟩
  · rw [if_neg hd]
    refine ⟨rfl, _, lookupConv_setConv_self s cid conv _ h,
      ⟨role, content, now⟩, ?_, rfl, rfl⟩
    simp

theorem add_message_dup_noop (s : Store) (cid role content now : String)
    (conv : Conversation) (h : lookupConv s cid = some conv)
    (m : Message) (hm : conv.messages.getLast? = some m)
    (hr : m.role = role) (hc : m.content = content) :
    (add_message s cid role content now).1 = s := by
  simp only [add_message, h]
  by_cases hb : isBlank content = true
  · rw [if_pos hb]
  · rw [if_neg hb, if_pos (by simp [hm, Option.any, hr, hc])]

/-- C1: for every finite chunk sequence, the content field of the last
snapshot yielded by `process_stream_response` equals the concatenation, in
arrival order, of all content fragments; and when unflushed buffered content
remains at input exhaustion, one final snapshot carrying the complete
content is emitted after the loop output. -/
theorem stream_final_content (t0 : Nat) (chunks : List Chunk) :
    (∀ r c, (process_stream_response t0 chunks).getLast? = some (r, c) →
      c = contentConcat chunks)
    ∧ ((runChunks (initState t0) chunks).1.buffer ≠ "" →
        process_stream_response t0 chunks
          = (runChunks (initState t0) chunks).2
            ++ [((runChunks (initState t0) chunks).1.reasoning,
                 contentConcat chunks)]) := by
  rcases hp : runChunks (initState t0) chunks with ⟨st, out⟩
  have hfull : st.full_response = contentConcat chunks := by
    have h1 := runChunks_full_response (initState t0) chunks
    rw [hp] at h1
    simpa [initState, String.empty_append] using h1
  have hinv : SnapInv st out := by
    have h1 := runChunks_snapInv (initState t0) chunks [] (Or.inr (Or.inl rfl))
    rw [hp] at h1
    simpa using h1
  have hunfold : process_stream_response t0 chunks =
      if st.buffer ≠ "" then out ++ [(st.reasoning, st.full_response)]
      else out := by
    rw [process_stream_response, hp]
  simp only [hp]
  constructor
  · intro r c hc
    rw [hunfold] at hc
    by_cases hb : st.buffer = ""
    · simp only [hb, ne_eq, not_true_eq_false, if_false] at hc
      rcases hinv with h | h | ⟨r', hr⟩
      · exact absurd hb h
      · rw [h] at hc
        simp at hc
      · rw [hr] at hc
        simp only [Option.some.injEq, Prod.mk.injEq] at hc
        rw [← hc.2]
        exact hfull
    · rw [if_pos hb] at hc
      simp only [List.getLast?_concat, Option.some.injEq, Prod.mk.injEq] at hc
      rw [← hc.2]
      exact hfull
  · intro hb
    rw [hunfold, if_pos hb, hfull]

/-- Witness for `stream_final_content` at the concrete chunk list carrying a
single content fragment `"ab"`, whose size and timing trigger no in-loop
flush, so the final flush produces the only snapshot. -/
theorem stream_final_content_witness :
    "ab" = contentConcat [⟨none, some "ab", 0⟩]
    ∧ process_stream_response 0 [⟨none, some "ab", 0⟩]
        = (runChunks (initState 0) [⟨none, some "ab", 0⟩]).2
          ++ [((runChunks (initState 0) [⟨none, some "ab", 0⟩]).1.reasoning,
               contentConcat [⟨none, some "ab", 0⟩])] :=
  ⟨((stream_final_content 0 [⟨none, some "ab", 0⟩]).1 "" "ab"
      (by decide)).symm,
   (stream_final_content 0 [⟨none, some "ab", 0⟩]).2 (by decide)⟩

theorem shouldYield_iff (st : SRState) (c : String) (t : Nat) :
    shouldYield st c t = true ↔
      (st.last_yield_time + 30 ≤ t ∨ 5 ≤ st.char_count + c.length ∨
        c ∈ sentencePunct) := by
  simp [shouldYield, List.contains_iff_exists_mem_beq, or_assoc]

/-- C3 counterexample: the fragment `"a."` ends in the sentence-terminating
character `'.'` while neither the 30ms condition nor the 5-character
condition holds, yet the content branch of `process_stream_response` emits
no snapshot, because the code compares the whole fragment against the
punctuation list rather than its last character. -/
theorem stream_emit_punct_counterexample :
    (processChunk (initState 0) ⟨none, some "a.", 0⟩).2 = []
    ∧ "a.".data.getLast? = some '.'
    ∧ '.' ∈ ['\n', '。', '！', '？', '.', '!', '?']
    ∧ ¬ ((initState 0).last_yield_time + 30 ≤ 0)
    ∧ (initState 0).char_count + "a.".length < 5 :=
  ⟨by decide, by decide, by decide, by decide, by decide⟩

/-- C3 (amended): a content fragment triggers a snapshot exactly when at
least 30ms elapsed since the last flush, or at least 5 characters accumulated
since the last flush (counting the fragment itself), or the fragment is
exactly one of the fixed punctuation strings (full-width and ASCII variants
plus newline). -/
theorem stream_emit_condition (st : SRState) (c : String) (t : Nat) :
    (processChunk st ⟨none, some c, t⟩).2 ≠ [] ↔
      (st.last_yield_time + 30 ≤ t ∨ 5 ≤ st.char_count + c.length ∨
        c ∈ sentencePunct) := by
  rw [← shouldYield_iff st c t]
  simp only [processChunk]
  by_cases hy : shouldYield st c t = true <;> simp [hy]

/-- C9: undo at the boundary: starting from history index 0, any number of
invocations of `undo_last_message` leaves the index at 0 and the visible
history unchanged; the operation consumes no store and no network value. -/
theorem undo_idempotent_at_boundary (mh : List (List ChatMsg))
    (ch : List ChatMsg) (n : Nat) : undoIter mh n (ch, 0) = (ch, 0) := by
  induction n with
  | zero => rfl
  | succ n ih => simpa [undoIter, undo_last_message] using ih

/-- C2 counterexample: on a conversation with a full exchange and the title
`旧标题`, a failing title-generation request does not leave the title
unchanged: `generate_conversation_title` traps the failure internally and
returns the default `新对话`, which `update_title_with_ai` then stores. -/
theorem title_failure_changes_title :
    (lookupConv (update_title_with_ai [("1", twoMsgConv)] "1"
        (Except.error ())).1 "1").map Conversation.title = some "新对话"
    ∧ twoMsgConv.title = "旧标题" :=
  ⟨by decide, by decide⟩

/-- C2 (amended): for an id present in the store, `update_title_with_ai`
applies a title update exactly when the conversation has at least 2 messages;
when the underlying completion request fails the call still succeeds and
stores the fallback title `新对话` (so the title is unchanged only if it
already was the fallback); with fewer than 2 messages, or on an unknown id,
nothing is mutated and `false` is returned. -/
theorem update_title_semantics (s : Store) (cid : String)
    (conv : Conversation) (api : Except Unit String)
    (h : lookupConv s cid = some conv) :
    (2 ≤ conv.messages.length →
      update_title_with_ai s cid api
        = (setConv s cid
            { conv with
                title := generate_conversation_title conv.messages api },
           true)
      ∧ (api = Except.error () →
          generate_conversation_title conv.messages api = "新对话"))
    ∧ (conv.messages.length < 2 → update_title_with_ai s cid api = (s, false))
    ∧ (∀ s' cid', lookupConv s' cid' = none →
        update_title_with_ai s' cid' api = (s', false)) := by
  refine ⟨?_, ?_, ?_⟩
  · intro hlen
    constructor
    · simp only [update_title_with_ai, h, if_pos hlen]
    · intro herr
      subst herr
      have hne : conv.messages.isEmpty = false := by
        cases hm : conv.messages
        · rw [hm] at hlen
          simp at hlen
        · simp [hm]
      simp [generate_conversation_title, hne]
  · intro hlen
    simp only [update_title_with_ai, h]
    rw [if_neg (show ¬ 2 ≤ conv.messages.length by omega)]
  · intro s' cid' h'
    simp only [update_title_with_ai, h']

/-- Witness for `update_title_semantics` at a concrete two-message
conversation with a failing request. -/
theorem update_title_semantics_witness :
    update_title_with_ai [("1", twoMsgConv)] "1" (Except.error ())
      = (setConv [("1", twoMsgConv)] "1"
          { twoMsgConv with
              title := generate_conversation_title twoMsgConv.messages
                (Except.error ()) },
         true)
    ∧ generate_conversation_title twoMsgConv.messages (Except.error ())
        = "新对话"
    ∧ update_title_with_ai [("1", oneMsgConv)] "1" (Except.error ())
        = ([("1", oneMsgConv)], false)
    ∧ update_title_with_ai [] "zzz" (Except.error ()) = ([], false) := by
  have h1 := update_title_semantics [("1", twoMsgConv)] "1" twoMsgConv
    (Except.error ()) (by decide)
  have h2 := update_title_semantics [("1", oneMsgConv)] "1" oneMsgConv
    (Except.error ()) (by decide)
  exact ⟨(h1.1 (by decide)).1, (h1.1 (by decide)).2 rfl,
    h2.2.1 (by decide), h1.2.2 [] "zzz" (by decide)⟩

/-- C4: when the first `k` attempts fail (`k < 3`) and attempt `k+1`
succeeds, the retry loop of `generate_response` performs exactly `k` backoff
sleeps of `attemptNumber * 2` seconds (2s after the first failure, 4s after
the second) and makes exactly `k+1` attempts; and for every behaviour of the
endpoint at most 3 attempts are made. -/
theorem retry_controller_correct (failsAt : Nat → Bool) (k : Nat) (hk : k < 3)
    (hf : ∀ i, i < k → failsAt i = true) (hs : failsAt k = false) :
    ((generate_response_attempts failsAt).attempts = k + 1
     ∧ (generate_response_attempts failsAt).sleeps
        = (List.range k).map (fun i => (i + 1) * 2)
     ∧ (generate_response_attempts failsAt).success = true)
    ∧ ∀ g : Nat → Bool, (generate_response_attempts g).attempts ≤ 3 := by
  constructor
  · interval_cases k
    · rw [generate_response_attempts, retryLoop]
      simp [hs]
    · have h0 := hf 0 (by omega)
      rw [generate_response_attempts, retryLoop]
      rw [retryLoop]
      simp [h0, hs]
      decide
    · have h0 := hf 0 (by omega)
      have h1 := hf 1 (by omega)
      rw [generate_response_attempts, retryLoop]
      rw [retryLoop]
      rw [retryLoop]
      simp [h0, h1, hs]
      decide
  · intro g
    rw [generate_response_attempts, retryLoop]
    rw [retryLoop]
    rw [retryLoop]
    cases h0 : g 0 <;> cases h1 : g 1 <;> cases h2 : g 2 <;>
      simp [h0, h1, h2]

/-- Witness for `retry_controller_correct` at an endpoint failing exactly on
the first attempt: one backoff sleep of 2 seconds, two attempts in total. -/
theorem retry_controller_correct_witness :
    (generate_response_attempts (fun i => decide (i = 0))).attempts = 2
    ∧ (generate_response_attempts (fun i => decide (i = 0))).sleeps = [2]
    ∧ (generate_response_attempts (fun i => decide (i = 0))).success = true := by
  have h := (retry_controller_correct (fun i => decide (i = 0)) 1 (by decide)
    (by decide) (by decide)).1
  simpa using h

theorem add_message_dup_true (s : Store) (cid role content now : String)
    (conv : Conversation) (h : lookupConv s cid = some conv)
    (hb : isBlank content = false)
    (m : Message) (hm : conv.messages.getLast? = some m)
    (hr : m.role = role) (hc : m.content = content) :
    add_message s cid role content now = (s, true) := by
  simp only [add_message, h]
  rw [if_neg (by simp [hb]), if_pos (by simp [hm, Option.any, hr, hc])]

/-- C5: when all three attempts fail, `generate_response` materialises, in
the active conversation and before returning control, assistant content equal
to the terminal error text carrying the last underlying error and the fixed
four guidance hints (network, credentials, connectivity/VPN, retry-later):
afterwards the last stored message of the conversation is an assistant
message with exactly that text. -/
theorem failed_turn_materializes_error (s : Store)
    (cid userMsg e now1 now2 : String) (conv : Conversation)
    (h : lookupConv s cid = some conv) :
    ∃ conv', lookupConv (generate_response_failure s cid userMsg e now1 now2)
        cid = some conv'
      ∧ ∃ m, conv'.messages.getLast? = some m ∧ m.role = "assistant"
        ∧ m.content = "API调用最终失败: " ++ e ++
            "\n\n可能的解决方案:\n1. 检查网络连接\n2. 确认API密钥有效\n3. 尝试使用VPN\n4. 稍后重试" := by
  obtain ⟨conv1, h1⟩ := add_message_lookup_some s cid "user" userMsg now1 conv h
  obtain ⟨-, conv', hc', m, hm, hrole, hcontent⟩ :=
    add_message_last (add_message s cid "user" userMsg now1).1 cid
      "assistant" (final_error_msg e) now2 conv1 h1 (final_error_msg_not_blank e)
  exact ⟨conv', hc', m, hm, hrole, hcontent⟩

/-- Witness for `failed_turn_materializes_error` at a concrete empty
conversation, user message `"hi"` and underlying error `"boom"`. -/
theorem failed_turn_materializes_error_witness :
    ∃ conv', lookupConv (generate_response_failure [("1", baseConv)] "1" "hi"
        "boom" "t1" "t2") "1" = some conv'
      ∧ ∃ m, conv'.messages.getLast? = some m ∧ m.role = "assistant"
        ∧ m.content = "API调用最终失败: " ++ "boom" ++
            "\n\n可能的解决方案:\n1. 检查网络连接\n2. 确认API密钥有效\n3. 尝试使用VPN\n4. 稍后重试" :=
  failed_turn_materializes_error [("1", baseConv)] "1" "hi" "boom" "t1" "t2"
    baseConv (by decide)

/-- C7 counterexample: the content `" "` is non-empty, yet appending it twice
to a fresh conversation stores no message at all (not one), and the append
reports `False` (not `True`): `add_message` rejects whitespace-only content
before the duplicate check. -/
theorem add_blank_duplicate_counterexample :
    (" " : String) ≠ ""
    ∧ (add_message [("1", baseConv)] "1" "user" " " "t1").2 = false
    ∧ (lookupConv (add_message (add_message [("1", baseConv)] "1" "user" " "
        "t1").1 "1" "user" " " "t2").1 "1").map
          (fun conv => conv.messages.length) = some 0 :=
  ⟨by decide, by decide, by decide⟩

/-- C7 (amended): for an id present in the store and content that is
non-empty after trimming whitespace, an append identical to the last stored
message returns `true` and leaves the store unchanged; two consecutive
identical appends equal a single one (the second is a no-op returning
`true`); a non-duplicate append stores the message with the fresh timestamp
and bumps `updated_at`. -/
theorem add_message_duplicate_semantics (s : Store) (cid r c now1 now2 : String)
    (conv : Conversation) (h : lookupConv s cid = some conv)
    (hb : isBlank c = false) :
    (∀ m, conv.messages.getLast? = some m → m.role = r → m.content = c →
      add_message s cid r c now1 = (s, true))
    ∧ add_message (add_message s cid r c now1).1 cid r c now2
        = ((add_message s cid r c now1).1, true)
    ∧ (conv.messages.getLast?.any (fun m => m.role == r && m.content == c)
          = false →
        add_message s cid r c now1
          = (setConv s cid
              { conv with
                  messages := conv.messages ++ [⟨r, c, now1⟩]
                  updated_at := now1 },
             true)) := by
  refine ⟨?_, ?_, ?_⟩
  · intro m hm hr hc
    exact add_message_dup_true s cid r c now1 conv h hb m hm hr hc
  · obtain ⟨-, conv1, h1, m, hm, hr, hc⟩ :=
      add_message_last s cid r c now1 conv h hb
    exact add_message_dup_true _ cid r c now2 conv1 h1 hb m hm hr hc
  · intro hd
    simp only [add_message, h]
    rw [if_neg (by simp [hb]), if_neg (by simp [hd])]

/-- Witness for `add_message_duplicate_semantics` at a conversation whose
last stored message is `(user, hi)`. -/
theorem add_message_duplicate_semantics_witness :
    add_message [("1", oneMsgConv)] "1" "user" "hi" "t1"
      = ([("1", oneMsgConv)], true)
    ∧ add_message (add_message [("1", oneMsgConv)] "1" "user" "hi" "t1").1
        "1" "user" "hi" "t2"
      = ((add_message [("1", oneMsgConv)] "1" "user" "hi" "t1").1, true) := by
  have h := add_message_duplicate_semantics [("1", oneMsgConv)] "1" "user"
    "hi" "t1" "t2" oneMsgConv (by decide) (by decide)
  exact ⟨h.1 ⟨"user", "hi", "t0"⟩ (by decide) rfl rfl, h.2.1⟩

/-- C8: appending empty or whitespace-only content is rejected with no store
mutation at all (in particular the message count is unchanged), and
`add_message` preserves the invariant that no persisted message has empty or
whitespace-only content — so appends never persist such a message. -/
theorem blank_append_never_persists (s : Store) (cid role content now : String) :
    (isBlank content = true → add_message s cid role content now = (s, false))
    ∧ (∀ conv, lookupConv s cid = some conv → goodConv conv →
        ∀ conv', lookupConv (add_message s cid role content now).1 cid
            = some conv' → goodConv conv') := by
  have hblank : isBlank content = true →
      add_message s cid role content now = (s, false) := by
    intro hb
    cases hl : lookupConv s cid
    · simp only [add_message, hl]
    · simp only [add_message, hl]
      rw [if_pos hb]
  refine ⟨hblank, ?_⟩
  intro conv h hg conv' h'
  by_cases hb : isBlank content = true
  · rw [hblank hb, h] at h'
    cases h'
    exact hg
  · by_cases hd : conv.messages.getLast?.any
        (fun m => m.role == role && m.content == content) = true
    · have e : (add_message s cid role content now).1 = s := by
        simp only [add_message, h]
        rw [if_neg hb, if_pos hd]
      rw [e, h] at h'
      cases h'
      exact hg
    · have e : (add_message s cid role content now).1
          = setConv s cid
              { conv with
                  messages := conv.messages ++ [⟨role, content, now⟩]
                  updated_at := now } := by
        simp only [add_message, h]
        rw [if_neg hb, if_neg hd]
      rw [e, lookupConv_setConv_self s cid conv _ h] at h'
      cases h'
      intro m hm
      rcases List.mem_append.mp hm with hin | hin
      · exact hg m hin
      · have hmv : m = ⟨role, content, now⟩ := by simpa using hin
        subst hmv
        simpa using hb

/-- Witness for `blank_append_never_persists`: a whitespace-only append is a
rejected no-op, and a store satisfying the no-blank invariant still
satisfies it after a genuine append. -/
theorem blank_append_never_persists_witness :
    add_message [("1", oneMsgConv)] "1" "user" " " "t1"
      = ([("1", oneMsgConv)], false)
    ∧ goodConv { oneMsgConv with
        messages := oneMsgConv.messages ++ [⟨"assistant", "yo", "t1"⟩]
        updated_at := "t1" } := by
  refine ⟨(blank_append_never_persists [("1", oneMsgConv)] "1" "user" " "
    "t1").1 (by decide), ?_⟩
  refine (blank_append_never_persists [("1", oneMsgConv)] "1" "assistant"
    "yo" "t1").2 oneMsgConv (by decide) ?_ _ ?_
  · unfold goodConv
    decide
  · decide

/-- C10: on an id present in the store, `like_conversation` increments
exactly the likes counter and refreshes `updated_at` (title, messages,
`created_at` and the dislikes counter are carried over unchanged, as the
record update shows), `dislike_conversation` does the same for dislikes,
every other conversation in the store is untouched, and on an unknown id
both return `false` without any mutation. -/
theorem like_dislike_semantics (s : Store) (cid now : String)
    (conv : Conversation) (h : lookupConv s cid = some conv) :
    (like_conversation s cid now
       = (setConv s cid
           { conv with
               likes := conv.likes + 1
               updated_at := now },
          true)
     ∧ lookupConv (like_conversation s cid now).1 cid
       = some { conv with likes := conv.likes + 1, updated_at := now }
     ∧ ∀ cid', cid' ≠ cid →
        lookupConv (like_conversation s cid now).1 cid' = lookupConv s cid')
    ∧ (dislike_conversation s cid now
       = (setConv s cid
           { conv with
               dislikes := conv.dislikes + 1
               updated_at := now },
          true)
     ∧ lookupConv (dislike_conversation s cid now).1 cid
       = some { conv with dislikes := conv.dislikes + 1, updated_at := now }
     ∧ ∀ cid', cid' ≠ cid →
        lookupConv (dislike_conversation s cid now).1 cid'
          = lookupConv s cid')
    ∧ (∀ s' cid', lookupConv s' cid' = none →
        like_conversation s' cid' now = (s', false)
        ∧ dislike_conversation s' cid' now = (s', false)) := by
  refine ⟨⟨?_, ?_, ?_⟩, ⟨?_, ?_, ?_⟩, ?_⟩
  · simp only [like_conversation, h]
  · simp only [like_conversation, h]
    exact lookupConv_setConv_self s cid conv _ h
  · intro cid' hne
    simp only [like_conversation, h]
    exact lookupConv_setConv_ne s cid cid' _ hne
  · simp only [dislike_conversation, h]
  · simp only [dislike_conversation, h]
    exact lookupConv_setConv_self s cid conv _ h
  · intro cid' hne
    simp only [dislike_conversation, h]
    exact lookupConv_setConv_ne s cid cid' _ hne
  · intro s' cid' h'
    constructor
    · simp only [like_conversation, h']
    · simp only [dislike_conversation, h']

/-- Witness for `like_dislike_semantics` at a concrete one-conversation
store, plus the unknown-id no-op case. -/
theorem like_dislike_semantics_witness :
    lookupConv (like_conversation [("1", baseConv)] "1" "t1").1 "1"
      = some { baseConv with likes := 1, updated_at := "t1" }
    ∧ lookupConv (dislike_conversation [("1", baseConv)] "1" "t1").1 "1"
      = some { baseConv with dislikes := 1, updated_at := "t1" }
    ∧ lookupConv (like_conversation [("1", baseConv)] "1" "t1").1 "2"
      = lookupConv [("1", baseConv)] "2"
    ∧ like_conversation [] "zzz" "t1" = ([], false) := by
  have h := like_dislike_semantics [("1", baseConv)] "1" "t1" baseConv
    (by decide)
  exact ⟨h.1.2.1, h.2.1.2.1, h.1.2.2 "2" (by decide),
    (h.2.2 [] "zzz" (by decide)).1⟩

theorem add_message_blank_noop (s : Store) (cid role content now : String)
    (hb : isBlank content = true) :
    add_message s cid role content now = (s, false) := by
  cases hl : lookupConv s cid
  · simp only [add_message, hl]
  · simp only [add_message, hl]
    rw [if_pos hb]

theorem add_message_append (s : Store) (cid role content now : String)
    (conv : Conversation) (h : lookupConv s cid = some conv)
    (hb : isBlank content = false)
    (hd : conv.messages.getLast?.any
        (fun m => m.role == role && m.content == content) = false) :
    add_message s cid role content now
      = (setConv s cid
          { conv with
              messages := conv.messages ++ [⟨role, content, now⟩]
              updated_at := now },
         true) := by
  simp only [add_message, h]
  rw [if_neg (by simp [hb]), if_neg (by simp [hd])]

theorem userCount_append (a b : List Message) :
    userCount (a ++ b) = userCount a + userCount b := by
  simp [userCount, List.filter_append]

theorem assistantCount_append (a b : List Message) :
    assistantCount (a ++ b) = assistantCount a + assistantCount b := by
  simp [assistantCount, List.filter_append]

theorem update_title_with_ai_messages (s : Store) (cid : String)
    (api : Except Unit String) (conv : Conversation)
    (h : lookupConv s cid = some conv) :
    ∃ conv', lookupConv (update_title_with_ai s cid api).1 cid = some conv'
      ∧ conv'.messages = conv.messages := by
  simp only [update_title_with_ai, h]
  by_cases hlen : 2 ≤ conv.messages.length
  · rw [if_pos hlen]
    exact ⟨_, lookupConv_setConv_self s cid conv _ h, rfl⟩
  · rw [if_neg hlen]
    exact ⟨conv, h, rfl⟩

theorem find_last_user_append (hInit : List ChatMsg) (u0 a0 : String) :
    find_last_user_message (hInit ++ [⟨"user", u0⟩, ⟨"assistant", a0⟩])
      = some u0 := by
  simp [find_last_user_message, List.find?]

theorem retry_prepare_eq (hInit : List ChatMsg) (u0 a0 : String) (s : Store)
    (cid tL : String) (conv : Conversation) (msInit : List Message)
    (mU mA : Message) (h : lookupConv s cid = some conv)
    (hmsgs : conv.messages = msInit ++ [mU, mA]) :
    retry_prepare (hInit ++ [⟨"user", u0⟩, ⟨"assistant", a0⟩]) s cid tL
      = (hInit ++ [⟨"user", u0⟩],
         setConv s cid
           { conv with messages := msInit ++ [mU], updated_at := tL }) := by
  have hlastH : (hInit ++ [(⟨"user", u0⟩ : ChatMsg),
      ⟨"assistant", a0⟩]).getLast? = some ⟨"assistant", a0⟩ := by simp
  have hne : conv.messages.isEmpty = false := by simp [hmsgs]
  have hdrop : conv.messages.dropLast = msInit ++ [mU] := by
    rw [hmsgs, show msInit ++ [mU, mA] = (msInit ++ [mU]) ++ [mA] by simp,
      List.dropLast_concat]
  simp only [retry_prepare, hlastH]
  rw [if_pos (by simp [Option.any])]
  rw [Prod.mk.injEq]
  constructor
  · simp
  · simp only [remove_last_message, h]
    rw [if_neg (by simp [hne]), hdrop]

theorem retry_resend_userCount (u : String) (s : Store) (cid resp : String)
    (api : Except Unit String) (tU tA : String) (conv : Conversation)
    (msInit : List Message) (mU : Message)
    (h : lookupConv s cid = some conv)
    (hmsgs : conv.messages = msInit ++ [mU]) (hU : mU.role = "user")
    (hUc : mU.content = u) :
    ∃ conv', lookupConv (retry_resend u s cid resp api tU tA) cid = some conv'
      ∧ userCount conv'.messages = userCount conv.messages := by
  have hlast : conv.messages.getLast? = some mU := by simp [hmsgs]
  have hs2 : (add_message s cid "user" u tU).1 = s :=
    add_message_dup_noop s cid "user" u tU conv h mU hlast hU hUc
  by_cases hresp : resp = ""
  · refine ⟨conv, ?_, rfl⟩
    simp only [retry_resend, hresp, if_pos rfl, hs2]
    exact h
  · by_cases hb : isBlank resp = true
    · have hs3 : (add_message s cid "assistant" resp tA).1 = s := by
        rw [add_message_blank_noop s cid "assistant" resp tA hb]
      have hdrop : conv.messages.dropLast = msInit := by
        rw [hmsgs, List.dropLast_concat]
      have h4 : (update_last_message s cid resp tA).1
          = setConv s cid
              { conv with
                  messages := msInit ++
                    [{ mU with content := resp, timestamp := tA }]
                  updated_at := tA } := by
        simp only [update_last_message, h, hlast, hdrop]
      have hlook4 : lookupConv (update_last_message s cid resp tA).1 cid
          = some { conv with
              messages := msInit ++
                [{ mU with content := resp, timestamp := tA }]
              updated_at := tA } := by
        rw [h4]
        exact lookupConv_setConv_self s cid conv _ h
      obtain ⟨conv', h5, hmsg5⟩ := update_title_with_ai_messages _ cid api _ hlook4
      refine ⟨conv', ?_, ?_⟩
      · simp only [retry_resend, if_neg hresp, hs2, hs3]
        exact h5
      · rw [hmsg5, hmsgs, userCount_append, userCount_append]
        simp [userCount, hU]
    · have hbf : isBlank resp = false := by
        cases hbb : isBlank resp
        · rfl
        · exact absurd hbb hb
      have hd : conv.messages.getLast?.any
          (fun m => m.role == "assistant" && m.content == resp) = false := by
        simp [hlast, Option.any, hU]
      have hadd := add_message_append s cid "assistant" resp tA conv h hbf hd
      have hs3 : (add_message s cid "assistant" resp tA).1
          = setConv s cid
              { conv with
                  messages := conv.messages ++ [⟨"assistant", resp, tA⟩]
                  updated_at := tA } := by
        rw [hadd]
      have hlook3 : lookupConv (add_message s cid "assistant" resp tA).1 cid
          = some { conv with
              messages := conv.messages ++ [⟨"assistant", resp, tA⟩]
              updated_at := tA } := by
        rw [hs3]
        exact lookupConv_setConv_self s cid conv _ h
      have hlast3 : (conv.messages ++ [(⟨"assistant", resp, tA⟩ : Message)]).getLast?
          = some ⟨"assistant", resp, tA⟩ := by simp
      have h4 : (update_last_message (add_message s cid "assistant" resp tA).1
            cid resp tA).1
          = setConv (add_message s cid "assistant" resp tA).1 cid
              { conv with
                  messages := (conv.messages ++ [(⟨"assistant", resp, tA⟩ : Message)]).dropLast
                    ++ [⟨"assistant", resp, tA⟩]
                  updated_at := tA } := by
        simp only [update_last_message, hlook3, hlast3]
      have hlook4 : lookupConv (update_last_message
            (add_message s cid "assistant" resp tA).1 cid resp tA).1 cid
          = some { conv with
              messages := (conv.messages ++ [(⟨"assistant", resp, tA⟩ : Message)]).dropLast
                ++ [⟨"assistant", resp, tA⟩]
              updated_at := tA } := by
        rw [h4]
        exact lookupConv_setConv_self _ cid _ _ hlook3
      obtain ⟨conv', h5, hmsg5⟩ := update_title_with_ai_messages _ cid api _ hlook4
      refine ⟨conv', ?_, ?_⟩
      · simp only [retry_resend, if_neg hresp, hs2]
        exact h5
      · rw [hmsg5]
        simp only [List.dropLast_concat]
        rw [hmsgs, userCount_append, userCount_append]
        simp [userCount, hU]

/-- C6 counterexample: a visible chat history whose last entry is an
assistant reply and which contains a user message, in sync with the stored
conversation, but ending in TWO consecutive assistant replies: the retry
removes only the final assistant reply, the recovered user message does not
match the new last stored message, the duplicate guard does not fire, and
the stored user-message count grows from 1 to 2. -/
theorem retry_duplicate_user_counterexample :
    ([⟨"user", "hi"⟩, ⟨"assistant", "x"⟩, ⟨"assistant", "y"⟩] :
        List ChatMsg).getLast? = some ⟨"assistant", "y"⟩
    ∧ doubleAssistantConv.messages.map (fun m => (m.role, m.content))
        = ([⟨"user", "hi"⟩, ⟨"assistant", "x"⟩, ⟨"assistant", "y"⟩] :
            List ChatMsg).map (fun m => (m.role, m.content))
    ∧ userCount doubleAssistantConv.messages = 1
    ∧ (lookupConv (retry_last_message
          [⟨"user", "hi"⟩, ⟨"assistant", "x"⟩, ⟨"assistant", "y"⟩]
          [("1", doubleAssistantConv)] "1" 0 "ok" (Except.error ())
          "tU" "tA" "tL").2 "1").map (fun conv => userCount conv.messages)
        = some 2 :=
  ⟨by decide, by decide, by decide, by decide⟩

/-- C6 (amended): for every visible chat history ending in a user message
directly followed by an assistant reply, with the stored conversation's
messages in sync (its messages decompose as a prefix followed by that user
message and an assistant message), the retry removes exactly one assistant
message from both the visible history and the Turn Store (the removal stage
leaves the store's messages equal to the original minus the final assistant
entry), and re-sending the recovered user message creates no duplicate: the
stored user-message count after the whole retry equals the original. -/
theorem retry_removes_one_assistant_no_duplicate_user
    (hInit : List ChatMsg) (u0 a0 resp : String) (s : Store) (cid : String)
    (idx : Int) (api : Except Unit String) (tU tA tL : String)
    (conv : Conversation) (msInit : List Message) (mU mA : Message)
    (hidx : 0 ≤ idx) (h : lookupConv s cid = some conv)
    (hmsgs : conv.messages = msInit ++ [mU, mA])
    (hU : mU.role = "user") (hUc : mU.content = u0)
    (hA : mA.role = "assistant") :
    (retry_last_message (hInit ++ [⟨"user", u0⟩, ⟨"assistant", a0⟩]) s cid
        idx resp api tU tA tL).1
      = (hInit ++ [⟨"user", u0⟩]) ++ [⟨"assistant", resp⟩]
    ∧ (∃ conv', lookupConv (retry_last_message
          (hInit ++ [⟨"user", u0⟩, ⟨"assistant", a0⟩]) s cid idx resp api
          tU tA tL).2 cid = some conv'
        ∧ userCount conv'.messages = userCount conv.messages)
    ∧ (∃ convR, lookupConv (retry_prepare
          (hInit ++ [⟨"user", u0⟩, ⟨"assistant", a0⟩]) s cid tL).2 cid
          = some convR
        ∧ convR.messages = conv.messages.dropLast
        ∧ assistantCount conv.messages = assistantCount convR.messages + 1) := by
  have hfind := find_last_user_append hInit u0 a0
  have hprep := retry_prepare_eq hInit u0 a0 s cid tL conv msInit mU mA h hmsgs
  have hguard : ((hInit ++ [(⟨"user", u0⟩ : ChatMsg),
      ⟨"assistant", a0⟩]).isEmpty || decide (idx < 0)) = false := by
    have hnneg : ¬ (idx < 0) := by omega
    simp [hnneg]
  have hretry : retry_last_message
      (hInit ++ [⟨"user", u0⟩, ⟨"assistant", a0⟩]) s cid idx resp api tU tA tL
      = ((hInit ++ [⟨"user", u0⟩]) ++ [⟨"assistant", resp⟩],
         retry_resend u0
           (setConv s cid
             { conv with messages := msInit ++ [mU], updated_at := tL })
           cid resp api tU tA) := by
    rw [retry_last_message, if_neg (by simp [hguard])]
    simp only [hfind, hprep]
  have hdrop : conv.messages.dropLast = msInit ++ [mU] := by
    rw [hmsgs, show msInit ++ [mU, mA] = (msInit ++ [mU]) ++ [mA] by simp,
      List.dropLast_concat]
  have hlookR : lookupConv (setConv s cid
      { conv with messages := msInit ++ [mU], updated_at := tL }) cid
      = some { conv with messages := msInit ++ [mU], updated_at := tL } :=
    lookupConv_setConv_self s cid conv _ h
  refine ⟨?_, ?_, ?_⟩
  · rw [hretry]
  · obtain ⟨conv', h5, hcount⟩ := retry_resend_userCount u0
      (setConv s cid { conv with messages := msInit ++ [mU], updated_at := tL })
      cid resp api tU tA
      { conv with messages := msInit ++ [mU], updated_at := tL }
      msInit mU hlookR rfl hU hUc
    refine ⟨conv', ?_, ?_⟩
    · rw [hretry]
      exact h5
    · rw [hcount, hmsgs,
        show msInit ++ [mU, mA] = (msInit ++ [mU]) ++ [mA] by simp,
        userCount_append (msInit ++ [mU]) [mA]]
      simp [userCount, hA]
  · refine ⟨{ conv with messages := msInit ++ [mU], updated_at := tL }, ?_,
      by simpa using hdrop.symm, ?_⟩
    · rw [hprep]
      exact hlookR
    · rw [hmsgs, show msInit ++ [mU, mA] = (msInit ++ [mU]) ++ [mA] by simp,
        assistantCount_append (msInit ++ [mU]) [mA]]
      simp [assistantCount, hA]

/-- Witness for `retry_removes_one_assistant_no_duplicate_user` at a
one-exchange conversation with a successful re-sent reply. -/
theorem retry_no_duplicate_user_witness :
    (retry_last_message ([] ++ [⟨"user", "你好"⟩, ⟨"assistant", "答复"⟩])
        [("1", twoMsgConv)] "1" 0 "好的" (Except.error ()) "tU" "tA" "tL").1
      = ([] ++ [⟨"user", "你好"⟩]) ++ [⟨"assistant", "好的"⟩]
    ∧ (∃ conv', lookupConv (retry_last_message
          ([] ++ [⟨"user", "你好"⟩, ⟨"assistant", "答复"⟩])
          [("1", twoMsgConv)] "1" 0 "好的" (Except.error ())
          "tU" "tA" "tL").2 "1" = some conv'
        ∧ userCount conv'.messages = userCount twoMsgConv.messages)
    ∧ (∃ convR, lookupConv (retry_prepare
          ([] ++ [⟨"user", "你好"⟩, ⟨"assistant", "答复"⟩])
          [("1", twoMsgConv)] "1" "tL").2 "1" = some convR
        ∧ convR.messages = twoMsgConv.messages.dropLast
        ∧ assistantCount twoMsgConv.messages
            = assistantCount convR.messages + 1) :=
  retry_removes_one_assistant_no_duplicate_user [] "你好" "答复" "好的"
    [("1", twoMsgConv)] "1" 0 (Except.error ()) "tU" "tA" "tL" twoMsgConv
    [] ⟨"user", "你好", "t0"⟩ ⟨"assistant", "答复", "t0"⟩
    (by decide) (by decide) (by decide) rfl rfl rfl
